import Mathlib

/-!
Verification of the dockerlogredirect capture-worker supervisor.

Shallow embedding of the two source files:
  * `src/dockerlogredirect/log_redirect/log_redirect.py`
      (`get_docker_log`, `create_docker_log_threads`)
  * `src/dockerlogredirect/dockerlogredirect.py`
      (`create_docker_container_loggers`, the status-processing loop of `main`)

Python strings are modelled as `List Char`; Python's substring test `p in s`
is `decide (p <:+: s)`; the logging sink (`container_logger.debug`) is
modelled as the list of lines written, in order.  External collaborators
(the `subprocess` stream, `ictoolkit`'s `start_function_thread`, and
`threading.enumerate()`) are modelled by explicit parameters that capture
exactly the observable behaviour the source relies on.
-/

namespace DockerLogRedirect

/-- Python's substring test `p in s` on strings: `p` occurs contiguously in `s`. -/
def pyIn (p s : List Char) : Bool := decide (p <:+: s)

/-- The whitespace characters stripped by Python's `str.rstrip()`
(ASCII range; the source only ever meets ASCII line endings). -/
def isPySpace (c : Char) : Bool :=
  c = ' ' || c = '\t' || c = '\n' || c = '\r' || c = '\x0b' || c = '\x0c'

/-- Python `line.rstrip()` (log_redirect.py line 80): removes all trailing
whitespace characters from the line. -/
def pyRstrip (l : List Char) : List Char :=
  (l.reverse.dropWhile isPySpace).reverse

/-- The `exclude` argument of `get_docker_log`: in the source it may be a
Python `str`, a Python `list`, or (when the config layer passed through a
missing optional key) `None`. -/
inductive Exclude where
  | str  (p : List Char)
  | list (ps : List (List Char))
  | none
deriving DecidableEq

/-- log_redirect.py lines 89-96: the `matched_exclude` accumulator.  For each
`exclude_entry` contained in `line`, the (rstripped) line itself is appended. -/
def matchedExclude (exclude : List (List Char)) (line : List Char) : List (List Char) :=
  exclude.foldl (fun acc p => if pyIn p line then acc ++ [line] else acc) []

/-- log_redirect.py lines 82-103: what one loop iteration writes to the sink
for an already-rstripped line.  The `str` branch writes iff
`exclude not in line`; the `list` branch writes iff `matched_exclude`
stayed empty; the `None` branch writes unconditionally. -/
def writeLine : Exclude → List Char → List (List Char)
  | Exclude.str p, line => if pyIn p line then [] else [line]
  | Exclude.list ps, line => if matchedExclude ps line = [] then [line] else []
  | Exclude.none, line => [line]

/-- The forwarding decision of the exclusion filter, as a boolean
(`writeLine ex line = [line]` iff `shouldForward ex line`). -/
def shouldForward : Exclude → List Char → Bool
  | Exclude.str p, line => if pyIn p line then false else true
  | Exclude.list ps, line => if matchedExclude ps line = [] then true else false
  | Exclude.none, _ => true

/-- log_redirect.py lines 78-103: the blocking read loop of `get_docker_log`.
Each line read from the stream is rstripped and run through the exclusion
filter; survivors are appended to the sink, in order. -/
def streamLoop (ex : Exclude) : List (List Char) → List (List Char)
  | [] => []
  | line :: rest => writeLine ex (pyRstrip line) ++ streamLoop ex rest

/-- Outcome of the `subprocess.Popen` call (log_redirect.py line 76): either
it raises (e.g. `FileNotFoundError` when the `docker` binary is missing), or
it yields a stream whose `readline` iteration produces a finite list of
lines before the `''` sentinel. -/
inductive PopenResult where
  | raises (msg : List Char)
  | stream (lines : List (List Char))
deriving DecidableEq

/-- The marker substring that `ictoolkit.error_formatter` embeds in every
error it raises; both source files test for it to decide whether to forward
an exception untouched or wrap it. -/
def originatingMark : List Char := "Originating error on line".data

/-- Message of the error raised by `value_type_validation` when `exclude` is
`None` (log_redirect.py line 53). -/
def validationErr : List Char :=
  ("The value None is not in the expected value types str or list. " ++
    "Originating error on line 53 in log_redirect").data

/-- log_redirect.py lines 109-114: the formatted error raised when the
sub-process fails to run, with the original error text embedded. -/
def subprocessErr (container_name msg : List Char) : List Char :=
  ("The sub-process (docker logs -f ".data ++ container_name ++
    ") failed to run. Raising ValueError to exit the current sub-process thread. ".data) ++
  msg ++ (" Originating error on line 114 in log_redirect".data)

/-- Observable result of one `get_docker_log` run: whether the `Popen` spawn
was attempted, the lines written to the sink, and the terminal outcome. -/
structure WorkerRun where
  spawned : Bool
  writes : List (List Char)
  outcome : Except (List Char) Unit

/-- log_redirect.py lines 30-114, `get_docker_log(container_name,
container_logger, exclude)`.  `value_type_validation` (line 53) raises before
the sub-process is spawned when `exclude` is neither `str` nor `list`
(i.e. `None`); otherwise the sub-process is spawned and the read loop runs. -/
def get_docker_log (container_name : List Char) (container_logger : Nat)
    (exclude : Exclude) (popen : PopenResult) : WorkerRun :=
  match exclude with
  | Exclude.none => ⟨false, [], Except.error validationErr⟩
  | ex =>
    match popen with
    | PopenResult.raises msg =>
        ⟨true, [], Except.error (subprocessErr container_name msg)⟩
    | PopenResult.stream lines =>
        ⟨true, streamLoop ex lines, Except.ok ()⟩

section FilterLemmas

lemma matchedExclude_go (l : List Char) (ps : List (List Char)) :
    ∀ acc : List (List Char),
      ps.foldl (fun acc p => if pyIn p l then acc ++ [l] else acc) acc
        = acc ++ ps.foldl (fun acc p => if pyIn p l then acc ++ [l] else acc) [] := by
  induction ps with
  | nil => intro acc; simp
  | cons p ps ih =>
    intro acc
    simp only [List.foldl_cons]
    by_cases h : pyIn p l
    · rw [if_pos h, if_pos h, ih (acc ++ [l]), ih ([] ++ [l])]
      simp [List.append_assoc]
    · rw [if_neg h, if_neg h, ih acc]

lemma matchedExclude_eq_nil_iff (ps : List (List Char)) (l : List Char) :
    matchedExclude ps l = [] ↔ ∀ p ∈ ps, pyIn p l = false := by
  induction ps with
  | nil => simp [matchedExclude]
  | cons p ps ih =>
    simp only [matchedExclude, List.foldl_cons] at *
    by_cases h : pyIn p l
    · rw [if_pos h, matchedExclude_go]
      simp [h]
    · rw [if_neg h]
      simp only [List.mem_cons, forall_eq_or_imp]
      constructor
      · intro hnil
        exact ⟨by simp [h], ih.mp hnil⟩
      · intro ⟨_, hrest⟩
        exact ih.mpr hrest

lemma pyIn_false_iff (p l : List Char) : pyIn p l = false ↔ ¬ p <:+: l := by
  unfold pyIn
  simp

lemma writeLine_eq (ex : Exclude) (l : List Char) :
    writeLine ex l = if shouldForward ex l then [l] else [] := by
  cases ex with
  | str p =>
    by_cases h : pyIn p l <;> simp [writeLine, shouldForward, h]
  | list ps =>
    by_cases h : matchedExclude ps l = [] <;> simp [writeLine, shouldForward, h]
  | none => simp [writeLine, shouldForward]

lemma streamLoop_eq_filter (ex : Exclude) (lines : List (List Char)) :
    streamLoop ex lines = (lines.map pyRstrip).filter (shouldForward ex) := by
  induction lines with
  | nil => rfl
  | cons line rest ih =>
    simp only [streamLoop, List.map_cons, List.filter_cons, writeLine_eq, ih]
    by_cases h : shouldForward ex (pyRstrip line) <;> simp [h]

end FilterLemmas

section RstripLemmas

lemma takeWhile_all (p : Char → Bool) :
    ∀ (l : List Char) (c : Char), c ∈ l.takeWhile p → p c = true := by
  intro l
  induction l with
  | nil => intro c hc; simp [List.takeWhile] at hc
  | cons a as ih =>
    intro c hc
    simp only [List.takeWhile] at hc
    by_cases h : p a
    · rw [h] at hc
      simp only [List.mem_cons] at hc
      cases hc with
      | inl he => exact he ▸ h
      | inr hm => exact ih c hm
    · simp [h] at hc

lemma dropWhile_head_not (p : Char → Bool) :
    ∀ (l : List Char) (c : Char), (l.dropWhile p).head? = some c → p c = false := by
  intro l
  induction l with
  | nil => intro c hc; simp [List.dropWhile] at hc
  | cons a as ih =>
    intro c hc
    simp only [List.dropWhile] at hc
    by_cases h : p a
    · rw [h] at hc
      exact ih c hc
    · simp only [h] at hc
      simp only [List.head?] at hc
      cases hc
      exact Bool.eq_false_iff.mpr h

lemma pyRstrip_decomp (l : List Char) :
    l = pyRstrip l ++ (l.reverse.takeWhile isPySpace).reverse ∧
    (∀ c ∈ (l.reverse.takeWhile isPySpace).reverse, isPySpace c = true) := by
  constructor
  · have h := List.takeWhile_append_dropWhile isPySpace l.reverse
    have h2 : l.reverse.reverse =
        (l.reverse.takeWhile isPySpace ++ l.reverse.dropWhile isPySpace).reverse := by
      rw [h]
    rw [List.reverse_reverse, List.reverse_append] at h2
    exact h2.trans rfl
  · intro c hc
    rw [List.mem_reverse] at hc
    exact takeWhile_all isPySpace l.reverse c hc

lemma pyRstrip_getLast (l : List Char) (c : Char)
    (h : (pyRstrip l).getLast? = some c) : isPySpace c = false := by
  unfold pyRstrip at h
  rw [List.getLast?_reverse] at h
  exact dropWhile_head_not isPySpace l.reverse c h

end RstripLemmas

/-! ### Supervisor: `create_docker_log_threads` (log_redirect.py lines 117-203) -/

/-- One entry of `docker_container_loggers`
(`['MySoftware1', <Logger ...>, <exclude entry>]`, log_redirect.py line 156). -/
structure ContainerLogger where
  container_name : List Char
  container_logger : Nat
  exclude : Exclude
deriving DecidableEq

/-- log_redirect.py line 161: `container_name.replace(" ", "_")`. -/
def underscoreName (n : List Char) : List Char :=
  n.map (fun c => if c = ' ' then '_' else c)

/-- log_redirect.py line 164: `thread_name = f'{container_name}_thread'`
(after the space replacement). -/
def threadNameOf (c : ContainerLogger) : List Char :=
  underscoreName c.container_name ++ "_thread".data

/-- Python's rendering of one live thread inside `str(threading.enumerate())`:
`<Thread(name, started tid)>`.  The source relies only on the fact that each
live thread's name appears in that rendering delimited by this punctuation. -/
def renderThread (n : List Char) : List Char :=
  "<Thread(".data ++ n ++ ", started 123145)>".data

/-- `str(threading.enumerate())` (log_redirect.py lines 168 and 177): the
bracketed concatenation of the renderings of all live threads' names. -/
def renderEnumerate (live : List (List Char)) : List Char :=
  "[".data ++ (live.map renderThread).flatten ++ "]".data

/-- The set of live worker threads, the only cross-cycle state the source
consults (via `threading.enumerate()`). -/
structure CycleState where
  live : List (List Char)
deriving DecidableEq

/-- Observable outcome of `ictoolkit`'s `start_function_thread` (log_redirect.py
line 173): it either raises in the caller (forwarding an error from the worker's
startup, e.g. a sub-process failure or a startup timeout), or returns with the
new thread alive or already dead. -/
inductive SpawnOutcome where
  | raises (msg : List Char)
  | ok (alive : Bool)

/-- One status dictionary of the `thread_start_tracker`
(log_redirect.py lines 179, 182, 185, 188).  Fields are the keys `main`
reads back with `.get` (dockerlogredirect.py lines 434-437); a key missing
from the dictionary reads as `Option.none`. -/
structure ThreadRecord where
  status : List Char
  thread_name : Option (List Char)
  container_name : List Char
  thread_start_errors : Option (List Char)
deriving DecidableEq

/-- log_redirect.py line 188: `{'status': 'running', 'thread_name': ...,
'container_name': ..., 'thread_start_error': None}`. -/
def runningRecord (tname cname : List Char) : ThreadRecord :=
  ⟨"running".data, some tname, cname, Option.none⟩

/-- log_redirect.py line 179: the `'started'` record. -/
def startedRecord (tname cname : List Char) : ThreadRecord :=
  ⟨"started".data, some tname, cname, Option.none⟩

/-- log_redirect.py line 182: the `'failed'` record; its dictionary carries no
`thread_name` key and no `thread_start_errors` key. -/
def failedRecord (cname : List Char) : ThreadRecord :=
  ⟨"failed".data, Option.none, cname, Option.none⟩

/-- log_redirect.py line 185: the `'failed'` record carrying
`thread_start_errors`; only reachable when the local `thread_start_errors`
is not `None`. -/
def failedErrRecord (tname cname : List Char) (errs : Option (List Char)) : ThreadRecord :=
  ⟨"failed".data, some tname, cname, errs⟩

/-- Message of the wrapped error raised by the outer `except` of
`create_docker_log_threads` (log_redirect.py line 199) for errors that do not
already carry the `error_formatter` mark. -/
def generalThreadErr : List Char :=
  ("A general exception occurred when attempting to start the function thread. " ++
    "Originating error on line 203 in log_redirect").data

/-- Result of a completed cycle: the `thread_start_tracker` (a list of
singleton record lists, as in the source), the final thread state, and the
names for which a spawn was attempted. -/
structure CycleResult where
  tracker : List (List ThreadRecord)
  state : CycleState
  spawnedNames : List (List Char)
deriving DecidableEq

/-- log_redirect.py lines 154-188: the `for docker_container in
docker_container_loggers` loop.  For each source: derive the thread name; if
it occurs as a substring of `str(threading.enumerate())`, append a `running`
record and move on; otherwise call `start_function_thread` — if that raises,
the exception escapes the loop to the outer `except` (lines 193-203), which
re-raises it (unchanged when it carries the `error_formatter` mark, wrapped
otherwise), discarding the tracker; if it returns, the local
`thread_start_errors` (initialised `None` on line 165 and never reassigned)
selects the line-176 branch, and the re-check of `threading.enumerate()`
decides between the `started` and `failed` records. -/
def logThreadsLoop (spawn : List Char → SpawnOutcome) :
    CycleState → List (List ThreadRecord) → List (List Char) → List ContainerLogger →
    Except (List Char) CycleResult
  | st, tracker, spawned, [] => Except.ok ⟨tracker, st, spawned⟩
  | st, tracker, spawned, docker_container :: rest =>
    if pyIn (threadNameOf docker_container) (renderEnumerate st.live) then
      logThreadsLoop spawn st
        (tracker ++ [[runningRecord (threadNameOf docker_container)
          (underscoreName docker_container.container_name)]])
        spawned rest
    else
      match spawn (threadNameOf docker_container) with
      | SpawnOutcome.raises msg =>
        if pyIn originatingMark msg then Except.error msg
        else Except.error generalThreadErr
      | SpawnOutcome.ok alive =>
        let st' : CycleState :=
          if alive then ⟨st.live ++ [threadNameOf docker_container]⟩ else st
        let thread_start_errors : Option (List Char) := Option.none
        let record : ThreadRecord :=
          if thread_start_errors = Option.none then
            if pyIn (threadNameOf docker_container) (renderEnumerate st'.live) then
              startedRecord (threadNameOf docker_container)
                (underscoreName docker_container.container_name)
            else failedRecord (underscoreName docker_container.container_name)
          else failedErrRecord (threadNameOf docker_container)
            (underscoreName docker_container.container_name) thread_start_errors
        logThreadsLoop spawn st' (tracker ++ [[record]])
          (spawned ++ [threadNameOf docker_container]) rest

/-- log_redirect.py lines 117-203, `create_docker_log_threads`.  The external
collaborators (`start_function_thread`, `threading.enumerate()`) enter as the
`spawn` oracle and the initial `CycleState`. -/
def create_docker_log_threads (spawn : List Char → SpawnOutcome) (st : CycleState)
    (docker_container_loggers : List ContainerLogger) : Except (List Char) CycleResult :=
  logThreadsLoop spawn st [] [] docker_container_loggers

/-! ### `main`'s status-record processing (dockerlogredirect.py lines 430-544) -/

/-- The failure classification of spec §3 / §4.4, selected in `main` by
substring-matching `thread_start_errors` (dockerlogredirect.py lines 454-505;
both the `'The sub-process'` and the catch-all template map to the generic
spawn/stream category). -/
inductive FailureCategory where
  | SourceTimeout
  | SourceNotFound
  | SpawnOrStreamError
deriving DecidableEq

/-- dockerlogredirect.py lines 454-505: the alert-template selection applied
to a non-`None` `thread_start_errors` value. -/
def classifyError (msg : List Char) : FailureCategory :=
  if pyIn "timeout has reached".data msg then FailureCategory.SourceTimeout
  else if pyIn "The system cannot find the file specified".data msg then
    FailureCategory.SourceNotFound
  else FailureCategory.SpawnOrStreamError

/-- What `main` does with one status record. -/
inductive ProcessAction where
  | notRunning (category : Option FailureCategory)
  | logStarted
  | logRunning
  | unknownStatusError
deriving DecidableEq

/-- dockerlogredirect.py lines 439-544: the `if 'running' != status: ...
elif 'started' == status: ... elif 'running' == status: ... else:
error_formatter(ValueError ...)` chain applied to one record.  In the first
branch the failure category is derived from `thread_start_errors` when that
value is not `None` (lines 449-505). -/
def processRecord (r : ThreadRecord) : ProcessAction :=
  if "running".data ≠ r.status then
    ProcessAction.notRunning (r.thread_start_errors.map classifyError)
  else if "started".data = r.status then ProcessAction.logStarted
  else if "running".data = r.status then ProcessAction.logRunning
  else ProcessAction.unknownStatusError

/-! ### Config layer (dockerlogredirect.py lines 33-172) -/

/-- A YAML `exclude` value, when the key is present: a string or a list. -/
inductive YamlExclude where
  | str (s : List Char)
  | list (ps : List (List Char))
deriving DecidableEq

/-- One `docker_container` entry of the YAML configuration.  The `exclude`
field is `Option.none` when the optional key is absent. -/
structure ContainerConfig where
  container_name : List Char
  log_name : List Char
  max_log_file_size : Nat
  exclude : Option YamlExclude
deriving DecidableEq

/-- dockerlogredirect.py line 118: `exclude = docker_container.get('exclude')`.
A missing key yields Python `None`, which flows through unvalidated
(line 122: "Optional exclude entries are not validated"). -/
def readExclude (c : ContainerConfig) : Exclude :=
  match c.exclude with
  | Option.none => Exclude.none
  | some (YamlExclude.str s) => Exclude.str s
  | some (YamlExclude.list ps) => Exclude.list ps

/-- dockerlogredirect.py line 146: the `[container_name, container_logger,
exclude]` triple appended for one container (the logger handle is opaque). -/
def loggerTripleOf (c : ContainerConfig) : ContainerLogger :=
  ⟨c.container_name, 0, readExclude c⟩

/-- dockerlogredirect.py lines 85-161: `create_docker_container_loggers`
builds one logger triple per configured container, in order, without
validating the optional `exclude` value. -/
def create_docker_container_loggers (cs : List ContainerConfig) : List ContainerLogger :=
  cs.map loggerTripleOf

/-! ### Step equations and structural lemmas for the cycle loop -/

section LoopLemmas

variable (spawn : List Char → SpawnOutcome)

lemma loop_nil (st : CycleState) (tr : List (List ThreadRecord)) (sp : List (List Char)) :
    logThreadsLoop spawn st tr sp [] = Except.ok ⟨tr, st, sp⟩ := rfl

lemma loop_cons_live (st : CycleState) (tr : List (List ThreadRecord)) (sp : List (List Char))
    (c : ContainerLogger) (rest : List ContainerLogger)
    (h : pyIn (threadNameOf c) (renderEnumerate st.live) = true) :
    logThreadsLoop spawn st tr sp (c :: rest) =
      logThreadsLoop spawn st
        (tr ++ [[runningRecord (threadNameOf c) (underscoreName c.container_name)]]) sp rest := by
  simp [logThreadsLoop, h]

lemma loop_cons_raises (st : CycleState) (tr : List (List ThreadRecord)) (sp : List (List Char))
    (c : ContainerLogger) (rest : List ContainerLogger) (msg : List Char)
    (h : pyIn (threadNameOf c) (renderEnumerate st.live) = false)
    (h2 : spawn (threadNameOf c) = SpawnOutcome.raises msg) :
    logThreadsLoop spawn st tr sp (c :: rest) =
      (if pyIn originatingMark msg then Except.error msg
       else Except.error generalThreadErr) := by
  by_cases hm : pyIn originatingMark msg <;> simp [logThreadsLoop, h, h2, hm]

lemma loop_cons_spawn (st : CycleState) (tr : List (List ThreadRecord)) (sp : List (List Char))
    (c : ContainerLogger) (rest : List ContainerLogger) (alive : Bool)
    (h : pyIn (threadNameOf c) (renderEnumerate st.live) = false)
    (h2 : spawn (threadNameOf c) = SpawnOutcome.ok alive) :
    logThreadsLoop spawn st tr sp (c :: rest) =
      logThreadsLoop spawn (if alive then ⟨st.live ++ [threadNameOf c]⟩ else st)
        (tr ++ [[if pyIn (threadNameOf c)
              (renderEnumerate (if alive then ⟨st.live ++ [threadNameOf c]⟩ else st).live) then
            startedRecord (threadNameOf c) (underscoreName c.container_name)
          else failedRecord (underscoreName c.container_name)]])
        (sp ++ [threadNameOf c]) rest := by
  simp only [logThreadsLoop, h, Bool.false_eq_true, if_false, h2, if_true, ite_true]

end LoopLemmas

lemma get_opt_append_len {α : Type} : ∀ (l1 : List α) (x : α) (l2 : List α),
    (l1 ++ x :: l2).get? l1.length = some x
  | [], _, _ => rfl
  | _ :: t, x, l2 => get_opt_append_len t x l2

lemma flatten_split {α : Type} : ∀ (L : List (List α)) (x : List α), x ∈ L →
    ∃ A B, L.flatten = A ++ (x ++ B) := by
  intro L
  induction L with
  | nil => intro x hx; simp at hx
  | cons a L ih =>
    intro x hx
    rcases List.mem_cons.mp hx with he | hm
    · exact ⟨[], L.flatten, by simp [he]⟩
    · obtain ⟨A, B, hAB⟩ := ih x hm
      exact ⟨a ++ A, B, by simp [hAB, List.append_assoc]⟩

/-- A name that belongs to the live-thread list occurs as a substring of the
`str(threading.enumerate())` rendering: the source's membership test never
misses a genuinely live worker. -/
lemma mem_render (n : List Char) (live : List (List Char)) (h : n ∈ live) :
    pyIn n (renderEnumerate live) = true := by
  have hmem : renderThread n ∈ live.map renderThread := List.mem_map_of_mem _ h
  obtain ⟨A, B, hAB⟩ := flatten_split _ _ hmem
  unfold pyIn
  rw [decide_eq_true_eq]
  refine ⟨"[".data ++ A ++ "<Thread(".data,
    ", started 123145)>".data ++ B ++ "]".data, ?_⟩
  simp [renderEnumerate, hAB, renderThread, List.append_assoc]

lemma loop_extends (spawn : List Char → SpawnOutcome) :
    ∀ (ls : List ContainerLogger) (st : CycleState) (tr : List (List ThreadRecord))
      (sp : List (List Char)) (res : CycleResult),
      logThreadsLoop spawn st tr sp ls = Except.ok res →
      (∃ e, res.tracker = tr ++ e) ∧ (∃ e, res.spawnedNames = sp ++ e) ∧
      (∃ e, res.state.live = st.live ++ e) := by
  intro ls
  induction ls with
  | nil =>
    intro st tr sp res h
    rw [loop_nil] at h
    cases h
    exact ⟨⟨[], by simp⟩, ⟨[], by simp⟩, ⟨[], by simp⟩⟩
  | cons c rest ih =>
    intro st tr sp res h
    by_cases hl : pyIn (threadNameOf c) (renderEnumerate st.live) = true
    · rw [loop_cons_live spawn st tr sp c rest hl] at h
      obtain ⟨⟨e1, h1⟩, he2, he3⟩ := ih _ _ _ _ h
      exact ⟨⟨_, h1.trans (List.append_assoc tr _ e1)⟩, he2, he3⟩
    · rw [Bool.not_eq_true] at hl
      cases h2 : spawn (threadNameOf c) with
      | raises msg =>
        rw [loop_cons_raises spawn st tr sp c rest msg hl h2] at h
        split at h <;> cases h
      | ok alive =>
        rw [loop_cons_spawn spawn st tr sp c rest alive hl h2] at h
        obtain ⟨⟨e1, h1⟩, ⟨e2, h2'⟩, ⟨e3, h3⟩⟩ := ih _ _ _ _ h
        refine ⟨⟨_, h1.trans (List.append_assoc tr _ e1)⟩,
          ⟨_, h2'.trans (List.append_assoc sp _ e2)⟩, ?_⟩
        cases alive with
        | false => exact ⟨e3, by simpa using h3⟩
        | true =>
          simp only [if_true] at h3
          exact ⟨_, h3.trans (List.append_assoc st.live _ e3)⟩

lemma loop_length (spawn : List Char → SpawnOutcome) :
    ∀ (ls : List ContainerLogger) (st : CycleState) (tr : List (List ThreadRecord))
      (sp : List (List Char)) (res : CycleResult),
      logThreadsLoop spawn st tr sp ls = Except.ok res →
      res.tracker.length = tr.length + ls.length := by
  intro ls
  induction ls with
  | nil =>
    intro st tr sp res h
    rw [loop_nil] at h
    cases h
    simp
  | cons c rest ih =>
    intro st tr sp res h
    by_cases hl : pyIn (threadNameOf c) (renderEnumerate st.live) = true
    · rw [loop_cons_live spawn st tr sp c rest hl] at h
      have := ih _ _ _ _ h
      simp only [List.length_append, List.length_cons, List.length_nil] at this ⊢
      omega
    · rw [Bool.not_eq_true] at hl
      cases h2 : spawn (threadNameOf c) with
      | raises msg =>
        rw [loop_cons_raises spawn st tr sp c rest msg hl h2] at h
        split at h <;> cases h
      | ok alive =>
        rw [loop_cons_spawn spawn st tr sp c rest alive hl h2] at h
        have := ih _ _ _ _ h
        simp only [List.length_append, List.length_cons, List.length_nil] at this ⊢
        omega

lemma loop_record_shape (spawn : List Char → SpawnOutcome) :
    ∀ (ls : List ContainerLogger) (st : CycleState) (tr : List (List ThreadRecord))
      (sp : List (List Char)) (res : CycleResult),
      logThreadsLoop spawn st tr sp ls = Except.ok res →
      ∀ (i : Nat) (hi : i < ls.length),
      ∃ r, res.tracker.get? (tr.length + i) = some [r] ∧
        r.container_name = underscoreName ((ls.get ⟨i, hi⟩).container_name) ∧
        r.thread_start_errors = Option.none ∧
        (r.status = "running".data ∨ r.status = "started".data ∨ r.status = "failed".data) := by
  intro ls
  induction ls with
  | nil =>
    intro st tr sp res h i hi
    exact absurd hi (by simp)
  | cons c rest ih =>
    intro st tr sp res h i hi
    by_cases hl : pyIn (threadNameOf c) (renderEnumerate st.live) = true
    · rw [loop_cons_live spawn st tr sp c rest hl] at h
      cases i with
      | zero =>
        obtain ⟨⟨e1, h1⟩, _, _⟩ := loop_extends spawn _ _ _ _ _ h
        refine ⟨runningRecord (threadNameOf c) (underscoreName c.container_name), ?_,
          rfl, rfl, Or.inl rfl⟩
        rw [h1, Nat.add_zero, List.append_assoc]
        exact get_opt_append_len tr _ e1
      | succ i =>
        have hi' : i < rest.length := by simpa using hi
        have := ih _ _ _ _ h i hi'
        have harith : tr.length + (i + 1) =
            (tr ++ [[runningRecord (threadNameOf c) (underscoreName c.container_name)]]).length
              + i := by
          simp only [List.length_append, List.length_cons, List.length_nil]
          omega
        rw [harith]
        exact this
    · rw [Bool.not_eq_true] at hl
      cases h2 : spawn (threadNameOf c) with
      | raises msg =>
        rw [loop_cons_raises spawn st tr sp c rest msg hl h2] at h
        split at h <;> cases h
      | ok alive =>
        rw [loop_cons_spawn spawn st tr sp c rest alive hl h2] at h
        cases i with
        | zero =>
          obtain ⟨⟨e1, h1⟩, _, _⟩ := loop_extends spawn _ _ _ _ _ h
          by_cases hck : pyIn (threadNameOf c)
              (renderEnumerate (if alive then ⟨st.live ++ [threadNameOf c]⟩ else st).live) = true
          · refine ⟨startedRecord (threadNameOf c) (underscoreName c.container_name), ?_,
              rfl, rfl, Or.inr (Or.inl rfl)⟩
            have h1' : res.tracker =
                tr ++ ([startedRecord (threadNameOf c) (underscoreName c.container_name)] :: e1) := by
              rw [h1, hck]
              simp [List.append_assoc]
            rw [h1', Nat.add_zero]
            exact get_opt_append_len tr _ e1
          · rw [Bool.not_eq_true] at hck
            refine ⟨failedRecord (underscoreName c.container_name), ?_,
              rfl, rfl, Or.inr (Or.inr rfl)⟩
            have h1' : res.tracker =
                tr ++ ([failedRecord (underscoreName c.container_name)] :: e1) := by
              rw [h1, hck]
              simp [List.append_assoc]
            rw [h1', Nat.add_zero]
            exact get_opt_append_len tr _ e1
        | succ i =>
          have hi' : i < rest.length := by simpa using hi
          have := ih _ _ _ _ h i hi'
          have harith : ∀ (x : List ThreadRecord), tr.length + (i + 1) = (tr ++ [x]).length + i := by
            intro x
            simp only [List.length_append, List.length_cons, List.length_nil]
            omega
          rw [harith]
          exact this

lemma loop_tse_none (spawn : List Char → SpawnOutcome) :
    ∀ (ls : List ContainerLogger) (st : CycleState) (tr : List (List ThreadRecord))
      (sp : List (List Char)) (res : CycleResult),
      logThreadsLoop spawn st tr sp ls = Except.ok res →
      (∀ recs ∈ tr, ∀ r ∈ recs, r.thread_start_errors = Option.none) →
      ∀ recs ∈ res.tracker, ∀ r ∈ recs, r.thread_start_errors = Option.none := by
  intro ls
  induction ls with
  | nil =>
    intro st tr sp res h hpre
    rw [loop_nil] at h
    cases h
    exact hpre
  | cons c rest ih =>
    intro st tr sp res h hpre
    by_cases hl : pyIn (threadNameOf c) (renderEnumerate st.live) = true
    · rw [loop_cons_live spawn st tr sp c rest hl] at h
      refine ih _ _ _ _ h ?_
      intro recs hrecs r hr
      rcases List.mem_append.mp hrecs with hin | hnew
      · exact hpre recs hin r hr
      · simp only [List.mem_singleton] at hnew
        subst hnew
        simp only [List.mem_singleton] at hr
        subst hr
        rfl
    · rw [Bool.not_eq_true] at hl
      cases h2 : spawn (threadNameOf c) with
      | raises msg =>
        rw [loop_cons_raises spawn st tr sp c rest msg hl h2] at h
        split at h <;> cases h
      | ok alive =>
        rw [loop_cons_spawn spawn st tr sp c rest alive hl h2] at h
        refine ih _ _ _ _ h ?_
        intro recs hrecs r hr
        rcases List.mem_append.mp hrecs with hin | hnew
        · exact hpre recs hin r hr
        · simp only [List.mem_singleton] at hnew
          subst hnew
          simp only [List.mem_singleton] at hr
          subst hr
          split <;> first | rfl | (split <;> rfl)

lemma loop_no_spawn_live (spawn : List Char → SpawnOutcome) :
    ∀ (ls : List ContainerLogger) (st : CycleState) (tr : List (List ThreadRecord))
      (sp : List (List Char)) (res : CycleResult),
      logThreadsLoop spawn st tr sp ls = Except.ok res →
      ∀ n ∈ st.live, n ∈ res.spawnedNames → n ∈ sp := by
  intro ls
  induction ls with
  | nil =>
    intro st tr sp res h n _ hn
    rw [loop_nil] at h
    cases h
    exact hn
  | cons c rest ih =>
    intro st tr sp res h n hlive hn
    by_cases hl : pyIn (threadNameOf c) (renderEnumerate st.live) = true
    · rw [loop_cons_live spawn st tr sp c rest hl] at h
      exact ih _ _ _ _ h n hlive hn
    · rw [Bool.not_eq_true] at hl
      cases h2 : spawn (threadNameOf c) with
      | raises msg =>
        rw [loop_cons_raises spawn st tr sp c rest msg hl h2] at h
        split at h <;> cases h
      | ok alive =>
        rw [loop_cons_spawn spawn st tr sp c rest alive hl h2] at h
        have hlive' : n ∈ (if alive then ⟨st.live ++ [threadNameOf c]⟩ else st : CycleState).live := by
          cases alive with
          | false => simpa using hlive
          | true => simp only [if_true]; exact List.mem_append_left _ hlive
        have := ih _ _ _ _ h n hlive' hn
        rcases List.mem_append.mp this with hin | heq
        · exact hin
        · simp only [List.mem_singleton] at heq
          subst heq
          exact absurd (mem_render _ st.live hlive) (by simp [hl])

lemma loop_running_rec (spawn : List Char → SpawnOutcome) :
    ∀ (ls : List ContainerLogger) (st : CycleState) (tr : List (List ThreadRecord))
      (sp : List (List Char)) (res : CycleResult),
      logThreadsLoop spawn st tr sp ls = Except.ok res →
      ∀ (i : Nat) (hi : i < ls.length),
      threadNameOf (ls.get ⟨i, hi⟩) ∈ st.live →
      res.tracker.get? (tr.length + i)
        = some [runningRecord (threadNameOf (ls.get ⟨i, hi⟩))
            (underscoreName ((ls.get ⟨i, hi⟩).container_name))] := by
  intro ls
  induction ls with
  | nil =>
    intro st tr sp res h i hi
    exact absurd hi (by simp)
  | cons c rest ih =>
    intro st tr sp res h i hi hmem
    by_cases hl : pyIn (threadNameOf c) (renderEnumerate st.live) = true
    · rw [loop_cons_live spawn st tr sp c rest hl] at h
      cases i with
      | zero =>
        obtain ⟨⟨e1, h1⟩, _, _⟩ := loop_extends spawn _ _ _ _ _ h
        rw [h1, Nat.add_zero, List.append_assoc]
        exact get_opt_append_len tr _ e1
      | succ i =>
        have hi' : i < rest.length := by simpa using hi
        have := ih _ _ _ _ h i hi' hmem
        have harith : tr.length + (i + 1) =
            (tr ++ [[runningRecord (threadNameOf c) (underscoreName c.container_name)]]).length
              + i := by
          simp only [List.length_append, List.length_cons, List.length_nil]
          omega
        rw [harith]
        exact this
    · rw [Bool.not_eq_true] at hl
      cases i with
      | zero =>
        have hm : threadNameOf c ∈ st.live := hmem
        exact absurd (mem_render _ st.live hm) (by simp [hl])
      | succ i =>
        cases h2 : spawn (threadNameOf c) with
        | raises msg =>
          rw [loop_cons_raises spawn st tr sp c rest msg hl h2] at h
          split at h <;> cases h
        | ok alive =>
          rw [loop_cons_spawn spawn st tr sp c rest alive hl h2] at h
          have hi' : i < rest.length := by simpa using hi
          have hmem' : threadNameOf (rest.get ⟨i, hi'⟩)
              ∈ (if alive then ⟨st.live ++ [threadNameOf c]⟩ else st : CycleState).live := by
            cases alive with
            | false => simpa using hmem
            | true => simp only [if_true]; exact List.mem_append_left _ hmem
          have := ih _ _ _ _ h i hi' hmem'
          have harith : ∀ (x : List ThreadRecord),
              tr.length + (i + 1) = (tr ++ [x]).length + i := by
            intro x
            simp only [List.length_append, List.length_cons, List.length_nil]
            omega
          rw [harith]
          exact this


/-! ### Claim theorems: exclusion filter and capture worker -/

/-- C3: the exclusion filter forwards a line under a pattern list `P` (writes
it to the sink) iff no element of `P` is a substring of the line; the output
is always either the line or nothing; and the empty list forwards every line. -/
theorem c3_exclusion_filter_list (l : List Char) (P : List (List Char)) :
    (writeLine (Exclude.list P) l = [l] ↔ ∀ p ∈ P, ¬ p <:+: l) ∧
    (writeLine (Exclude.list P) l = [l] ∨ writeLine (Exclude.list P) l = []) ∧
    writeLine (Exclude.list []) l = [l] := by
  have hdef : writeLine (Exclude.list P) l
      = if matchedExclude P l = [] then [l] else [] := rfl
  have hiff : matchedExclude P l = [] ↔ ∀ p ∈ P, ¬ p <:+: l := by
    rw [matchedExclude_eq_nil_iff]
    constructor
    · intro h p hp
      exact (pyIn_false_iff p l).mp (h p hp)
    · intro h p hp
      exact (pyIn_false_iff p l).mpr (h p hp)
  refine ⟨?_, ?_, rfl⟩
  · by_cases h : matchedExclude P l = []
    · rw [hdef, if_pos h]
      exact ⟨fun _ => hiff.mp h, fun _ => rfl⟩
    · rw [hdef, if_neg h]
      constructor
      · intro habs
        simp at habs
      · intro hall
        exact absurd (hiff.mpr hall) h
  · by_cases h : matchedExclude P l = []
    · rw [hdef, if_pos h]
      exact Or.inl rfl
    · rw [hdef, if_neg h]
      exact Or.inr rfl

/-- C6: an empty-string exclude pattern behaves as a pattern matching every
line — with `exclude = ""` no line is forwarded, and with `"" ∈ P` no line is
forwarded either. -/
theorem c6_empty_pattern (l : List Char) (P : List (List Char))
    (h : ([] : List Char) ∈ P) :
    writeLine (Exclude.str []) l = [] ∧ writeLine (Exclude.list P) l = [] := by
  have hin : pyIn ([] : List Char) l = true := by
    unfold pyIn
    rw [decide_eq_true_eq]
    exact ⟨[], l, by simp⟩
  constructor
  · simp [writeLine, hin]
  · have hne : ¬ matchedExclude P l = [] := by
      intro hnil
      have := (matchedExclude_eq_nil_iff P l).mp hnil [] h
      rw [hin] at this
      cases this
    simp [writeLine, hne]

/-- C6 witness: the empty pattern excludes the concrete line `"hello"`, both
as a single string pattern and as a member of a pattern list. -/
theorem c6_empty_pattern_witness :
    (([] : List Char) ∈ [([] : List Char)]) ∧
    writeLine (Exclude.str []) ("hello".data) = [] ∧
    writeLine (Exclude.list [[]]) ("hello".data) = [] :=
  ⟨by decide, (c6_empty_pattern ("hello".data) [[]] (by decide)).1,
    (c6_empty_pattern ("hello".data) [[]] (by decide)).2⟩

/-- C4: a capture worker fed a finite stream writes to its sink exactly the
(rstripped) lines that pass the exclusion filter, as a filter of the input in
input order — hence a sublist (no reordering, no insertion) with per-line
multiplicity bounded by the input's (no duplication). -/
theorem c4_sink_order (name : List Char) (lg : Nat) (ex : Exclude)
    (lines : List (List Char)) (l : List Char) (hex : ex ≠ Exclude.none) :
    (get_docker_log name lg ex (PopenResult.stream lines)).writes
        = (lines.map pyRstrip).filter (shouldForward ex) ∧
    List.Sublist ((get_docker_log name lg ex (PopenResult.stream lines)).writes)
      (lines.map pyRstrip) ∧
    ((get_docker_log name lg ex (PopenResult.stream lines)).writes).count l
      ≤ (lines.map pyRstrip).count l := by
  have hw : (get_docker_log name lg ex (PopenResult.stream lines)).writes
      = streamLoop ex lines := by
    cases ex with
    | str p => rfl
    | list ps => rfl
    | none => exact absurd rfl hex
  rw [hw, streamLoop_eq_filter]
  exact ⟨rfl, List.filter_sublist _, (List.filter_sublist _).count_le l⟩

/-- C4 witness: the worker for source `"app2"` with exclude pattern `"DEBUG"`
fed `"INFO start"`, `"DEBUG noisy"`, `"INFO done"` writes the filter of the
rstripped lines — concretely `["INFO start", "INFO done"]`. -/
theorem c4_sink_order_witness :
    (Exclude.list ["DEBUG".data] ≠ Exclude.none) ∧
    (get_docker_log ("app2".data) 0 (Exclude.list ["DEBUG".data])
        (PopenResult.stream ["INFO start\n".data, "DEBUG noisy\n".data, "INFO done\n".data])).writes
      = (["INFO start\n".data, "DEBUG noisy\n".data, "INFO done\n".data].map pyRstrip).filter
          (shouldForward (Exclude.list ["DEBUG".data])) ∧
    (get_docker_log ("app2".data) 0 (Exclude.list ["DEBUG".data])
        (PopenResult.stream ["INFO start\n".data, "DEBUG noisy\n".data, "INFO done\n".data])).writes
      = ["INFO start".data, "INFO done".data] :=
  ⟨by decide,
    (c4_sink_order ("app2".data) 0 (Exclude.list ["DEBUG".data])
      ["INFO start\n".data, "DEBUG noisy\n".data, "INFO done\n".data] [] (by decide)).1,
    by rfl⟩

/-- C7: each line read from the stream enters the exclusion filter (and, when
forwarded, the sink) as its Python `rstrip()` — the read line with its
trailing whitespace removed (the removed suffix is all whitespace) and
otherwise unchanged (the kept part is a prefix of the read line, maximal in
that it does not itself end in whitespace). -/
theorem c7_rstrip_line (ex : Exclude) (line : List Char) (rest : List (List Char)) :
    streamLoop ex (line :: rest) = writeLine ex (pyRstrip line) ++ streamLoop ex rest ∧
    (∃ w, line = pyRstrip line ++ w ∧ ∀ c ∈ w, isPySpace c = true) ∧
    (∀ c, (pyRstrip line).getLast? = some c → isPySpace c = false) := by
  refine ⟨rfl, ?_, fun c hc => pyRstrip_getLast line c hc⟩
  obtain ⟨hdec, hws⟩ := pyRstrip_decomp line
  exact ⟨_, hdec, hws⟩

/-- C10: when a container's optional `exclude` key is omitted, the config
layer passes `None` through unvalidated, and `get_docker_log`'s input type
validation raises before the sub-process is spawned and before anything can
be written to the sink; the `None` forwarding branch of the read loop is
therefore unreachable. -/
theorem c10_none_exclude_raises (c : ContainerConfig) (hc : c.exclude = Option.none)
    (lg : Nat) (popen : PopenResult) :
    (loggerTripleOf c).exclude = Exclude.none ∧
    (get_docker_log c.container_name lg Exclude.none popen).spawned = false ∧
    (get_docker_log c.container_name lg Exclude.none popen).writes = [] ∧
    (get_docker_log c.container_name lg Exclude.none popen).outcome
      = Except.error validationErr := by
  refine ⟨?_, rfl, rfl, rfl⟩
  simp [loggerTripleOf, readExclude, hc]

/-- C10 witness: a concrete container config without an `exclude` key yields
the `None` exclude, and the worker run for it spawns nothing and writes
nothing even on a live stream. -/
theorem c10_none_exclude_raises_witness :
    ((⟨"app1".data, "app1.log".data, 100000, Option.none⟩ : ContainerConfig).exclude
      = Option.none) ∧
    (loggerTripleOf ⟨"app1".data, "app1.log".data, 100000, Option.none⟩).exclude
      = Exclude.none ∧
    (get_docker_log ("app1".data) 0 Exclude.none
        (PopenResult.stream ["hello".data])).spawned = false ∧
    (get_docker_log ("app1".data) 0 Exclude.none
        (PopenResult.stream ["hello".data])).writes = [] :=
  ⟨rfl,
    (c10_none_exclude_raises ⟨"app1".data, "app1.log".data, 100000, Option.none⟩ rfl 0
      (PopenResult.stream ["hello".data])).1,
    (c10_none_exclude_raises ⟨"app1".data, "app1.log".data, 100000, Option.none⟩ rfl 0
      (PopenResult.stream ["hello".data])).2.1,
    (c10_none_exclude_raises ⟨"app1".data, "app1.log".data, 100000, Option.none⟩ rfl 0
      (PopenResult.stream ["hello".data])).2.2.1⟩

/-! ### Claim theorems: supervisor cycle and status processing -/

/-- A spawn oracle whose threads always come up alive. -/
def spawnAlive : List Char → SpawnOutcome := fun _ => SpawnOutcome.ok true

/-- A spawn oracle whose threads return but die immediately. -/
def spawnDead : List Char → SpawnOutcome := fun _ => SpawnOutcome.ok false

/-- A spawn oracle that raises a plain (unformatted) error. -/
def spawnBoom : List Char → SpawnOutcome := fun _ => SpawnOutcome.raises ("boom".data)

/-- No worker threads alive. -/
def stEmpty : CycleState := ⟨[]⟩

def cApp1 : ContainerLogger := ⟨"app1".data, 0, Exclude.list []⟩

def cApp2 : ContainerLogger := ⟨"app2".data, 0, Exclude.list ["DEBUG".data]⟩

/-- A source whose name contains a space, exercising the underscore
normalisation. -/
def cAppOne : ContainerLogger := ⟨"app one".data, 0, Exclude.list []⟩

/-- Result of a first cycle over `[cAppOne]` from the empty state under
`spawnAlive`. -/
def resCycle1 : CycleResult :=
  ⟨[[startedRecord ("app_one_thread".data) ("app_one".data)]],
    ⟨["app_one_thread".data]⟩, ["app_one_thread".data]⟩

/-- Result of the immediately following second cycle over `[cAppOne]`. -/
def resCycle2 : CycleResult :=
  ⟨[[runningRecord ("app_one_thread".data) ("app_one".data)]],
    ⟨["app_one_thread".data]⟩, []⟩

/-- C2: running two cycles in immediate succession over the same source list,
every source whose worker thread is alive after the first cycle gets a
`running` record (never a duplicate `started`) at its position in the second
cycle's report, and no second spawn is attempted for its thread name. -/
theorem c2_second_cycle_running (spawn : List Char → SpawnOutcome)
    (loggers : List ContainerLogger) (st0 : CycleState) (res1 res2 : CycleResult)
    (h1 : create_docker_log_threads spawn st0 loggers = Except.ok res1)
    (h2 : create_docker_log_threads spawn res1.state loggers = Except.ok res2)
    (i : Nat) (hi : i < loggers.length)
    (halive : threadNameOf (loggers.get ⟨i, hi⟩) ∈ res1.state.live) :
    res2.tracker.get? i = some [runningRecord (threadNameOf (loggers.get ⟨i, hi⟩))
        (underscoreName ((loggers.get ⟨i, hi⟩).container_name))] ∧
    threadNameOf (loggers.get ⟨i, hi⟩) ∉ res2.spawnedNames := by
  have h2' : logThreadsLoop spawn res1.state [] [] loggers = Except.ok res2 := h2
  constructor
  · have := loop_running_rec spawn loggers res1.state [] [] res2 h2' i hi halive
    simpa using this
  · intro hmem
    have := loop_no_spawn_live spawn loggers res1.state [] [] res2 h2' _ halive hmem
    simp at this

/-- C2 witness: concrete consecutive cycles over the single source
`"app one"` — the first cycle starts the worker, the second reports
`running` at index 0 and spawns nothing. -/
theorem c2_second_cycle_running_witness :
    create_docker_log_threads spawnAlive stEmpty [cAppOne] = Except.ok resCycle1 ∧
    create_docker_log_threads spawnAlive resCycle1.state [cAppOne] = Except.ok resCycle2 ∧
    threadNameOf cAppOne ∈ resCycle1.state.live ∧
    (resCycle2.tracker.get? 0 = some [runningRecord (threadNameOf cAppOne)
        (underscoreName cAppOne.container_name)] ∧
      threadNameOf cAppOne ∉ resCycle2.spawnedNames) :=
  ⟨rfl, rfl, by decide,
    c2_second_cycle_running spawnAlive [cAppOne] stEmpty resCycle1 resCycle2 rfl rfl 0
      (by decide) (by decide)⟩

/-- C9: the liveness check is a substring test over the rendering of all live
thread names, not a per-key lookup — for source `"app"` while only a worker
thread named `"myapp_thread"` is live, the cycle emits a `running` record and
spawns nothing, although no worker for `"app"` exists. -/
theorem c9_substring_liveness :
    create_docker_log_threads spawnDead ⟨["myapp_thread".data]⟩
        [⟨"app".data, 0, Exclude.list []⟩]
      = Except.ok ⟨[[runningRecord ("app_thread".data) ("app".data)]],
          ⟨["myapp_thread".data]⟩, []⟩ := rfl

/-- C1 counterexample: when the spawn call raises for the first of two
sources, `create_docker_log_threads` aborts with a raised error — it emits no
`failed` record for that source, does not continue to the second source, and
returns no status records at all. -/
theorem c1_spawn_raise_counterexample :
    create_docker_log_threads spawnBoom stEmpty [cApp1, cApp2]
      = Except.error generalThreadErr := rfl

/-- C1 (amended): if the spawn call for a source raises, the cycle aborts by
re-raising (the error itself when it carries the `error_formatter` mark, a
wrapped error otherwise) and produces no report; a report with one singleton
record per source, in input order and with a status in
`{running, started, failed}`, is produced exactly on cycles where no spawn
call raises. -/
theorem c1_spawn_raise_aborts :
    (∀ (spawn : List Char → SpawnOutcome) (st : CycleState) (c : ContainerLogger)
        (rest : List ContainerLogger) (msg : List Char),
      pyIn (threadNameOf c) (renderEnumerate st.live) = false →
      spawn (threadNameOf c) = SpawnOutcome.raises msg →
      create_docker_log_threads spawn st (c :: rest)
        = (if pyIn originatingMark msg then Except.error msg
           else Except.error generalThreadErr)) ∧
    (∀ (spawn : List Char → SpawnOutcome) (st : CycleState)
        (loggers : List ContainerLogger) (res : CycleResult),
      create_docker_log_threads spawn st loggers = Except.ok res →
      res.tracker.length = loggers.length ∧
      ∀ (i : Nat) (hi : i < loggers.length), ∃ r, res.tracker.get? i = some [r] ∧
        r.container_name = underscoreName ((loggers.get ⟨i, hi⟩).container_name) ∧
        (r.status = "running".data ∨ r.status = "started".data ∨ r.status = "failed".data)) := by
  constructor
  · intro spawn st c rest msg hck hsp
    exact loop_cons_raises spawn st [] [] c rest msg hck hsp
  · intro spawn st loggers res h
    have h' : logThreadsLoop spawn st [] [] loggers = Except.ok res := h
    refine ⟨by simpa using loop_length spawn loggers st [] [] res h', ?_⟩
    intro i hi
    obtain ⟨r, hr, hc, _, hs⟩ := loop_record_shape spawn loggers st [] [] res h' i hi
    exact ⟨r, by simpa using hr, hc, hs⟩

/-- C1 witness: the abort branch at a concrete raising spawn, and the
full-report branch at a concrete raise-free cycle. -/
theorem c1_spawn_raise_aborts_witness :
    create_docker_log_threads spawnBoom stEmpty [cApp1] = Except.error generalThreadErr ∧
    (∃ r, resCycle1.tracker.get? 0 = some [r] ∧
      r.container_name = underscoreName (cAppOne.container_name) ∧
      (r.status = "running".data ∨ r.status = "started".data ∨ r.status = "failed".data)) := by
  constructor
  · have h := c1_spawn_raise_aborts.1 spawnBoom stEmpty cApp1 [] ("boom".data)
      (by decide) rfl
    have hf : pyIn originatingMark ("boom".data) = false := by decide
    rw [hf] at h
    simpa using h
  · exact (c1_spawn_raise_aborts.2 spawnAlive stEmpty [cAppOne] resCycle1 rfl).2 0 (by decide)

/-- The error text of a file-not-found failure of the `docker` sub-process. -/
def winMsg : List Char := "WinError 2 The system cannot find the file specified".data

/-- The formatted terminal error the worker for `"app3"` raises when its
sub-process cannot be found. -/
def app3Err : List Char := subprocessErr ("app3".data) winMsg

/-- Spawn oracle forwarding the `"app3"` worker's formatted startup error to
the caller, as `start_function_thread` does for errors raised in the worker's
startup window. -/
def spawnApp3 : List Char → SpawnOutcome := fun _ => SpawnOutcome.raises app3Err

def cApp3 : ContainerLogger := ⟨"app3".data, 0, Exclude.list []⟩

set_option maxRecDepth 40000 in
/-- C5: a source whose sub-process cannot be found never yields a
`failed` record classified `SourceNotFound`.  Concretely: the forwarded
not-found error (which does contain the not-found indication) makes the whole
cycle abort with that error instead of producing any record, the worker
writes nothing to its sink; and in general every record of any completed
cycle carries `thread_start_errors = None` (the local variable feeding it is
never reassigned), so `main`'s classification can never select
`SourceNotFound` from a record. -/
theorem c5_sourcenotfound_unreachable :
    create_docker_log_threads spawnApp3 stEmpty [cApp3] = Except.error app3Err ∧
    (get_docker_log ("app3".data) 0 (Exclude.list [])
      (PopenResult.raises winMsg)).writes = [] ∧
    pyIn ("The system cannot find the file specified".data) app3Err = true ∧
    (∀ (spawn : List Char → SpawnOutcome) (st : CycleState)
        (loggers : List ContainerLogger) (res : CycleResult),
      create_docker_log_threads spawn st loggers = Except.ok res →
      ∀ recs ∈ res.tracker, ∀ r ∈ recs,
        processRecord r ≠ ProcessAction.notRunning (some FailureCategory.SourceNotFound)) := by
  refine ⟨rfl, rfl, by decide, ?_⟩
  intro spawn st loggers res h recs hrecs r hr
  have h' : logThreadsLoop spawn st [] [] loggers = Except.ok res := h
  have hnone : r.thread_start_errors = Option.none :=
    loop_tse_none spawn loggers st [] [] res h' (by intro recs h'' _ _; simp at h'')
      recs hrecs r hr
  intro hcontra
  unfold processRecord at hcontra
  by_cases hst : "running".data = r.status
  · rw [if_neg (not_not_intro hst)] at hcontra
    by_cases h2 : "started".data = r.status
    · rw [if_pos h2] at hcontra
      exact ProcessAction.noConfusion hcontra
    · rw [if_neg h2, if_pos hst] at hcontra
      exact ProcessAction.noConfusion hcontra
  · rw [if_pos hst, hnone] at hcontra
    simp at hcontra

/-- C5 witness: the general no-`SourceNotFound` fact applied to the record of
a concrete completed cycle. -/
theorem c5_sourcenotfound_unreachable_witness :
    processRecord (startedRecord ("app_one_thread".data) ("app_one".data))
      ≠ ProcessAction.notRunning (some FailureCategory.SourceNotFound) :=
  c5_sourcenotfound_unreachable.2.2.2 spawnAlive stEmpty [cAppOne] resCycle1 rfl
    [startedRecord ("app_one_thread".data) ("app_one".data)] (by decide)
    (startedRecord ("app_one_thread".data) ("app_one".data)) (by decide)

/-- C8: a status value outside `{running, started, failed}` does not abort
the cycle — the `if 'running' != status` branch of `main` captures every
non-`running` status first, so the `else` arm that would raise the
`ValueError` is unreachable for every record; concretely, a record with
status `"bogus"` is handled by the not-running (alert) branch with no
category. -/
theorem c8_unknown_status_not_aborted :
    (∀ r : ThreadRecord, processRecord r ≠ ProcessAction.unknownStatusError) ∧
    processRecord ⟨"bogus".data, Option.none, "app1".data, Option.none⟩
      = ProcessAction.notRunning Option.none := by
  constructor
  · intro r
    unfold processRecord
    by_cases hst : "running".data = r.status
    · rw [if_neg (not_not_intro hst)]
      by_cases h2 : "started".data = r.status
      · rw [if_pos h2]
        intro hx
        exact ProcessAction.noConfusion hx
      · rw [if_neg h2, if_pos hst]
        intro hx
        exact ProcessAction.noConfusion hx
    · rw [if_pos hst]
      intro hx
      exact ProcessAction.noConfusion hx
  · rfl
